import Mathlib

/-!
Verification of the homelab-autopilot backup orchestration core.

This file gives a shallow embedding, in Lean, of the parts of the
repository that the checked properties talk about:

* `src/lib/state_manager.py` — the SQLite-backed typed key/value store
  (`_serialize_value`, `_deserialize_value`, `set`, `get`, `get_keys`);
* `src/core/backup_engine.py` — `_validate_backup_config`,
  `_determine_backup_destination`, `_execute_backup_command`,
  `_generate_backup_filename`, and (modelled from the spec, see its doc
  comment) `backup_all_services`;
* `src/core/config_loader.py` — `_merge_configs` and the per-service
  validation of `ServiceConfig` / `HomeLabConfig`;
* `src/plugins/hypervisors/proxmox.py` — `_get_actual_node`.

Conventions used throughout:

* Python values that the state store can receive are modelled by the
  inductive `PyVal`.  Python floats are deliberately not modelled
  (floating point is outside the integer-level embedding); every other
  supported storage type is.
* Strings are Lean `String`s; Python `str` truthiness (`if not s`) is
  the test `s = ""`, and `None` is `Option.none`.
* Effects are made explicit: functions that can raise return `Except`
  or `Option`; wall-clock reads (`datetime.now()`) become an explicit
  `DateTime` argument; the network probe in destination selection and
  the cluster query in the Proxmox adapter become explicit outcome
  arguments.
* Library calls whose byte-level text encoding is not re-verified here
  (`json.dumps`/`json.loads`) are modelled structurally: the TEXT
  column produced by `json.dumps j` is represented by `j` itself
  (`Payload.jsonText j`), which is faithful because `json.dumps` is
  injective on the JSON tree and `json.loads` is its documented
  inverse.  All scalar encodings (`str(int)`, `isoformat`, the
  `"True"`/`"False"` strings) are modelled at the character level.
-/

namespace HomelabAutopilot

/-! ## Decimal digit machinery

Shared by the `str(int)` / `int(str)` round trip of the state store,
`datetime.isoformat` rendering and parsing, and the zero-padded
`strftime` timestamp of `_generate_backup_filename`. -/

/-- The decimal digit character for a digit value below ten. -/
def decDigit : Nat → Char
  | 0 => '0' | 1 => '1' | 2 => '2' | 3 => '3' | 4 => '4'
  | 5 => '5' | 6 => '6' | 7 => '7' | 8 => '8' | 9 => '9'
  | _ => '*'

/-- Numeric value of a decimal digit character. -/
def decVal (c : Char) : Nat := c.toNat - 48

/-- Zero-padded decimal rendering of `n` to exactly `k` digit
characters, most significant first.  For `n < 10 ^ k` this is what
Python's `strftime`/`%0kd` formatting produces. -/
def padDigits : Nat → Nat → List Char
  | 0, _ => []
  | k + 1, n => padDigits k (n / 10) ++ [decDigit (n % 10)]

/-- Variable-width decimal rendering of a natural number, as produced
by Python's `str` on a non-negative `int`. -/
def natChars (n : Nat) : List Char :=
  if n = 0 then ['0'] else ((Nat.digits 10 n).reverse).map decDigit

/-- Accumulating decimal reader: the value denoted by a most
significant first digit-value list. -/
def valFold (l : List Nat) : Nat := l.foldl (fun a d => 10 * a + d) 0

/-- Read a non-empty all-digit character list as a natural number;
models Python's `int(...)` on the canonical output of `str`. -/
def parseNatChars (cs : List Char) : Option Nat :=
  if cs ≠ [] ∧ cs.all Char.isDigit then some (valFold (cs.map decVal)) else none

theorem decVal_decDigit {d : Nat} (h : d < 10) : decVal (decDigit d) = d := by
  interval_cases d <;> decide

theorem isDigit_decDigit {d : Nat} (h : d < 10) : (decDigit d).isDigit = true := by
  interval_cases d <;> decide

theorem decDigit_lt {a b : Nat} (ha : a < 10) (hb : b < 10) (h : a < b) :
    decDigit a < decDigit b := by
  interval_cases a <;> interval_cases b <;> simp_all <;> decide

theorem padDigits_length (k n : Nat) : (padDigits k n).length = k := by
  induction k generalizing n with
  | zero => rfl
  | succ k ih => simp [padDigits, ih]

theorem padDigits_all_digits (k n : Nat) :
    (padDigits k n).all Char.isDigit = true := by
  induction k generalizing n with
  | zero => rfl
  | succ k ih =>
    have hmod : n % 10 < 10 := Nat.mod_lt n (by norm_num)
    simp [padDigits, List.all_append, ih, isDigit_decDigit hmod]

theorem valFold_append_singleton (l : List Nat) (d : Nat) :
    valFold (l ++ [d]) = 10 * valFold l + d := by
  simp [valFold, List.foldl_append]

theorem valFold_padDigits {k n : Nat} (h : n < 10 ^ k) :
    valFold ((padDigits k n).map decVal) = n := by
  induction k generalizing n with
  | zero =>
    simp only [pow_zero, Nat.lt_one_iff] at h
    simp [padDigits, valFold, h]
  | succ k ih =>
    have hdiv : n / 10 < 10 ^ k := by
      rw [Nat.div_lt_iff_lt_mul (by norm_num)]
      calc n < 10 ^ (k + 1) := h
        _ = 10 ^ k * 10 := by ring
    have hmod : n % 10 < 10 := Nat.mod_lt n (by norm_num)
    simp only [padDigits, List.map_append, List.map_cons, List.map_nil,
      valFold_append_singleton, ih hdiv, decVal_decDigit hmod]
    omega

theorem valFold_reverse_eq_ofDigits (l : List Nat) :
    valFold l.reverse = Nat.ofDigits 10 l := by
  induction l with
  | nil => rfl
  | cons d t ih =>
    simp only [List.reverse_cons, valFold_append_singleton, ih, Nat.ofDigits_cons,
      Nat.cast_id]
    omega

theorem natChars_ne_nil (n : Nat) : natChars n ≠ [] := by
  unfold natChars
  split
  · simp
  · next h =>
    have : Nat.digits 10 n ≠ [] := Nat.digits_ne_nil_iff_ne_zero.mpr h
    simp [this]

theorem natChars_all_digits (n : Nat) : (natChars n).all Char.isDigit = true := by
  unfold natChars
  split
  · decide
  · rw [List.all_eq_true]
    intro c hc
    rw [List.mem_map] at hc
    obtain ⟨d, hd, rfl⟩ := hc
    rw [List.mem_reverse] at hd
    exact isDigit_decDigit (Nat.digits_lt_base (by norm_num) hd)

theorem parseNatChars_natChars (n : Nat) : parseNatChars (natChars n) = some n := by
  rw [parseNatChars, if_pos ⟨natChars_ne_nil n, natChars_all_digits n⟩]
  congr 1
  unfold natChars
  split
  · next h => subst h; decide
  · next h =>
    rw [List.map_map]
    have heq : List.map (decVal ∘ decDigit) (Nat.digits 10 n).reverse
        = List.map id (Nat.digits 10 n).reverse := by
      apply List.map_congr_left
      intro d hd
      rw [List.mem_reverse] at hd
      exact decVal_decDigit (Nat.digits_lt_base (by norm_num) hd)
    rw [heq, List.map_id, valFold_reverse_eq_ofDigits, Nat.ofDigits_digits]

/-- First character of `natChars` is a digit, hence never `'-'`: Python
`str` of a non-negative int has no sign. -/
theorem natChars_head_not_dash (n : Nat) :
    ∀ c ∈ (natChars n).head? , c ≠ '-' := by
  intro c hc
  have hall := natChars_all_digits n
  rw [List.all_eq_true] at hall
  have : c ∈ natChars n := by
    cases h : natChars n with
    | nil => simp [h] at hc
    | cons a t => simp [h] at hc; simp [h, hc]
  have := hall c this
  intro h
  subst h
  simp [Char.isDigit] at this

/-- Character list produced by Python's `str` on an `int` (sign plus
decimal digits). -/
def intChars (i : Int) : List Char :=
  if i < 0 then '-' :: natChars i.natAbs else natChars i.natAbs

/-- Models Python's `int(...)` on the canonical output of `str(int)`:
an optional leading minus sign followed by decimal digits.  (CPython's
`int` also accepts surrounding whitespace, a plus sign and digit-group
underscores; those never occur in stored values, which are always
produced by `str`.) -/
def parseIntChars (cs : List Char) : Option Int :=
  if cs.head? = some '-' then
    (parseNatChars cs.tail).map (fun n : Nat => -(n : Int))
  else (parseNatChars cs).map (fun n : Nat => (n : Int))

theorem parseIntChars_intChars (i : Int) : parseIntChars (intChars i) = some i := by
  by_cases hneg : i < 0
  · rw [intChars, if_pos hneg, parseIntChars]
    simp only [List.head?_cons, List.tail_cons, parseNatChars_natChars, reduceIte,
      Option.map_some', Option.some.injEq]
    omega
  · rw [intChars, if_neg hneg, parseIntChars]
    have hne := natChars_ne_nil i.natAbs
    have hd : (natChars i.natAbs).head? ≠ some '-' := by
      cases h : natChars i.natAbs with
      | nil => exact absurd h hne
      | cons a t =>
        have := natChars_head_not_dash i.natAbs a (by simp [h])
        simp [this]
    rw [if_neg hd, parseNatChars_natChars]
    simp only [Option.map_some', Option.some.injEq]
    omega

/-! ## Datetimes

`datetime.datetime` values as stored by the state manager.  The field
bounds in `DateTime.valid` are the invariants CPython's `datetime`
constructor enforces (`MINYEAR = 1`, `MAXYEAR = 9999`, and so on); a
`datetime.now()` value always satisfies them. -/

structure DateTime where
  year : Nat
  month : Nat
  day : Nat
  hour : Nat
  minute : Nat
  second : Nat
  usec : Nat
deriving DecidableEq, Repr

/-- The invariants of a constructed CPython `datetime` object. -/
def DateTime.valid (d : DateTime) : Bool :=
  1 ≤ d.year && d.year ≤ 9999 && 1 ≤ d.month && d.month ≤ 12 &&
  1 ≤ d.day && d.day ≤ 31 && d.hour ≤ 23 && d.minute ≤ 59 &&
  d.second ≤ 59 && d.usec ≤ 999999

/-- Character-level `datetime.isoformat()`:
`YYYY-MM-DDTHH:MM:SS` with a `.ffffff` suffix exactly when the
microsecond field is non-zero. -/
def isoChars (d : DateTime) : List Char :=
  padDigits 4 d.year ++ '-' :: (padDigits 2 d.month ++ '-' :: (padDigits 2 d.day ++
    'T' :: (padDigits 2 d.hour ++ ':' :: (padDigits 2 d.minute ++
      ':' :: (padDigits 2 d.second ++
        (if d.usec = 0 then [] else '.' :: padDigits 6 d.usec))))))

/-- Read exactly `k` digit characters as a number, returning the rest. -/
def readFixed (k : Nat) (cs : List Char) : Option (Nat × List Char) :=
  if (cs.take k).length = k ∧ (cs.take k).all Char.isDigit then
    some (valFold ((cs.take k).map decVal), cs.drop k)
  else none

/-- Consume one expected character. -/
def expectChar (c : Char) (cs : List Char) : Option (List Char) :=
  match cs with
  | [] => none
  | k :: rest => if k = c then some rest else none

/-- Models `datetime.fromisoformat` on the image of `isoformat` (the
only strings with type tag `datetime` the store ever holds). -/
def parseIsoChars (cs : List Char) : Option DateTime := do
  let (y, cs) ← readFixed 4 cs
  let cs ← expectChar '-' cs
  let (mo, cs) ← readFixed 2 cs
  let cs ← expectChar '-' cs
  let (da, cs) ← readFixed 2 cs
  let cs ← expectChar 'T' cs
  let (h, cs) ← readFixed 2 cs
  let cs ← expectChar ':' cs
  let (mi, cs) ← readFixed 2 cs
  let cs ← expectChar ':' cs
  let (s, cs) ← readFixed 2 cs
  match cs with
  | [] => some ⟨y, mo, da, h, mi, s, 0⟩
  | rest => do
    let rest ← expectChar '.' rest
    let (us, rest) ← readFixed 6 rest
    if rest = [] then some ⟨y, mo, da, h, mi, s, us⟩ else none

theorem readFixed_padDigits {k n : Nat} (h : n < 10 ^ k) (rest : List Char) :
    readFixed k (padDigits k n ++ rest) = some (n, rest) := by
  have htake : (padDigits k n ++ rest).take k = padDigits k n :=
    List.take_left' (padDigits_length k n)
  have hdrop : (padDigits k n ++ rest).drop k = rest :=
    List.drop_left' (padDigits_length k n)
  rw [readFixed, htake, hdrop,
    if_pos ⟨padDigits_length k n, padDigits_all_digits k n⟩,
    valFold_padDigits h]

theorem readFixed_padDigits_nil {k n : Nat} (h : n < 10 ^ k) :
    readFixed k (padDigits k n) = some (n, []) := by
  have := readFixed_padDigits h ([] : List Char)
  rwa [List.append_nil] at this

theorem expectChar_cons (c : Char) (rest : List Char) :
    expectChar c (c :: rest) = some rest := by
  simp [expectChar]

set_option maxHeartbeats 1000000 in
theorem parseIsoChars_isoChars {d : DateTime} (hv : d.valid = true) :
    parseIsoChars (isoChars d) = some d := by
  obtain ⟨y, mo, da, h, mi, s, us⟩ := d
  simp only [DateTime.valid, Bool.and_eq_true, decide_eq_true_eq] at hv
  have e4 : (10 : ℕ) ^ 4 = 10000 := by norm_num
  have e2 : (10 : ℕ) ^ 2 = 100 := by norm_num
  have e6 : (10 : ℕ) ^ 6 = 1000000 := by norm_num
  have h1 : y < 10 ^ 4 := by omega
  have h2 : mo < 10 ^ 2 := by omega
  have h3 : da < 10 ^ 2 := by omega
  have h4 : h < 10 ^ 2 := by omega
  have h5 : mi < 10 ^ 2 := by omega
  have h6 : s < 10 ^ 2 := by omega
  have h7 : us < 10 ^ 6 := by omega
  rw [parseIsoChars, isoChars]
  by_cases hu : us = 0
  · rw [if_pos hu, List.append_nil]
    rw [readFixed_padDigits h1]
    simp only [Option.bind_eq_bind, Option.some_bind, expectChar_cons]
    rw [readFixed_padDigits h2]
    simp only [Option.some_bind, expectChar_cons]
    rw [readFixed_padDigits h3]
    simp only [Option.some_bind, expectChar_cons]
    rw [readFixed_padDigits h4]
    simp only [Option.some_bind, expectChar_cons]
    rw [readFixed_padDigits h5]
    simp only [Option.some_bind, expectChar_cons]
    rw [readFixed_padDigits_nil h6]
    simp [hu]
  · rw [if_neg hu]
    rw [readFixed_padDigits h1]
    simp only [Option.bind_eq_bind, Option.some_bind, expectChar_cons]
    rw [readFixed_padDigits h2]
    simp only [Option.some_bind, expectChar_cons]
    rw [readFixed_padDigits h3]
    simp only [Option.some_bind, expectChar_cons]
    rw [readFixed_padDigits h4]
    simp only [Option.some_bind, expectChar_cons]
    rw [readFixed_padDigits h5]
    simp only [Option.some_bind, expectChar_cons]
    rw [readFixed_padDigits h6]
    simp only [Option.some_bind, expectChar_cons]
    rw [readFixed_padDigits_nil h7]
    simp

/-! ## State manager (src/lib/state_manager.py)

The store is a single SQLite table `state(key TEXT PRIMARY KEY,
value TEXT, type TEXT, updated_at)`.  We model a table as an
association list of rows in rowid order; `updated_at` carries no
information used by any claim and is omitted. -/

/-- A Python dict key as accepted by `json.dumps` in this code base
(string or int; the engine only ever uses string keys). -/
inductive PyKey where
  | kint (n : Int)
  | kstr (s : String)

/-- A Python value of one of the types `_serialize_value` accepts,
floats excepted (floating point is outside this embedding). -/
inductive PyVal where
  | none
  | bool (b : Bool)
  | int (n : Int)
  | str (s : String)
  | datetime (d : DateTime)
  | dict (entries : List (PyKey × PyVal))
  | list (elems : List PyVal)

/-- A JSON document, the tree that `json.dumps` renders. -/
inductive Json where
  | null
  | bool (b : Bool)
  | int (n : Int)
  | str (s : String)
  | arr (elems : List Json)
  | obj (entries : List (String × Json))

/-- Key coercion performed by `json.dumps`: string keys are kept,
int keys are rendered with `str`. -/
def keyToString : PyKey → String
  | .kstr s => s
  | .kint n => String.mk (intChars n)

mutual

/-- The conversion `json.dumps` performs from a Python object to the
JSON tree it renders; `Option.none` is the `TypeError` raised on
unsupported objects (for this value universe: datetimes). -/
def pyToJson : PyVal → Option Json
  | .none => some .null
  | .bool b => some (.bool b)
  | .int n => some (.int n)
  | .str s => some (.str s)
  | .datetime _ => Option.none
  | .dict es => (dictToJson es).map Json.obj
  | .list es => (listToJson es).map Json.arr

def listToJson : List PyVal → Option (List Json)
  | [] => some []
  | v :: vs => do
    let j ← pyToJson v
    let js ← listToJson vs
    pure (j :: js)

def dictToJson : List (PyKey × PyVal) → Option (List (String × Json))
  | [] => some []
  | (k, v) :: es => do
    let j ← pyToJson v
    let js ← dictToJson es
    pure ((keyToString k, j) :: js)

end

mutual

/-- The Python object `json.loads` produces from a JSON tree: objects
become string-keyed dicts, arrays become lists. -/
def jsonToPy : Json → PyVal
  | .null => .none
  | .bool b => .bool b
  | .int n => .int n
  | .str s => .str s
  | .arr js => .list (jsonListToPy js)
  | .obj es => .dict (jsonObjToPy es)

def jsonListToPy : List Json → List PyVal
  | [] => []
  | j :: js => jsonToPy j :: jsonListToPy js

def jsonObjToPy : List (String × Json) → List (PyKey × PyVal)
  | [] => []
  | (k, j) :: es => (PyKey.kstr k, jsonToPy j) :: jsonObjToPy es

end

/-- Contents of the TEXT `value` column of one row.  Scalar encodings
are literal character data; the text written for the `json` type tag
is `json.dumps j` and is represented by the tree `j` itself, which is
faithful because `json.dumps` is injective (see the file header). -/
inductive Payload where
  | text (s : String)
  | jsonText (j : Json)

/-- Translation of `StateManager._serialize_value` (lines 73-102).
Returns the `(value, type)` column pair, or `Option.none` for the
`TypeError` on unsupported types.  The source checks `bool` before
`int` because Python's `bool` is a subclass of `int`; here the two are
distinct constructors, and the check order is reflected in the
distinct `"bool"`/`"int"` type tags. -/
def serializeValue : PyVal → Option (Payload × String)
  | .none => some (.text "null", "none")
  | .bool b => some (.text (if b then "True" else "False"), "bool")
  | .int n => some (.text (String.mk (intChars n)), "int")
  | .str s => some (.text s, "str")
  | .datetime d => some (.text (String.mk (isoChars d)), "datetime")
  | .dict es => (pyToJson (.dict es)).map (fun j => (Payload.jsonText j, "json"))
  | .list es => (pyToJson (.list es)).map (fun j => (Payload.jsonText j, "json"))

/-- Translation of `StateManager._deserialize_value` (lines 104-133).
`Option.none` is the `ValueError` on an unknown type tag or a
malformed payload.  The `float` branch of the source
(`float(value_str)`) is outside this embedding and is mapped to
`Option.none`; no serialized row ever carries the `float` tag here. -/
def deserializeValue (value : Payload) (typeName : String) : Option PyVal :=
  if typeName = "none" then some .none
  else if typeName = "bool" then
    match value with
    | .text s => some (.bool (s == "True"))
    | .jsonText _ => Option.none
  else if typeName = "int" then
    match value with
    | .text s => (parseIntChars s.data).map PyVal.int
    | .jsonText _ => Option.none
  else if typeName = "float" then Option.none
  else if typeName = "str" then
    match value with
    | .text s => some (.str s)
    | .jsonText _ => Option.none
  else if typeName = "datetime" then
    match value with
    | .text s => (parseIsoChars s.data).map PyVal.datetime
    | .jsonText _ => Option.none
  else if typeName = "json" then
    match value with
    | .jsonText j => some (jsonToPy j)
    | .text _ => Option.none
  else Option.none

/-- The `state` table in rowid order: key, then the value/type pair. -/
abbrev StateTable := List (String × (Payload × String))

/-- Row lookup, `SELECT value, type FROM state WHERE key = ?` (the key
is the primary key, so the first match is the only one). -/
def lookupRow (st : StateTable) (key : String) : Option (Payload × String) :=
  (st.find? (fun r => r.1 == key)).map Prod.snd

/-- Translation of `StateManager.set` (lines 169-202).  `INSERT OR
REPLACE` deletes a conflicting row and appends a fresh one (fresh
rowid); `Option.none` is the `TypeError` from serialization. -/
def StateManager.set (st : StateTable) (key : String) (value : PyVal) :
    Option StateTable :=
  (serializeValue value).map
    (fun row => st.filter (fun r => !(r.1 == key)) ++ [(key, row)])

/-- Translation of `StateManager.get` (lines 135-167) at its default
`default=None`: an absent key yields Python `None` (`PyVal.none`), a
present row is deserialized; `Option.none` is the `ValueError` a
malformed row would raise. -/
def StateManager.get (st : StateTable) (key : String) : Option PyVal :=
  match lookupRow st key with
  | Option.none => some PyVal.none
  | some (p, t) => deserializeValue p t

/-- SQLite's default ASCII-only case folding used by `LIKE`. -/
def asciiFold (c : Char) : Char :=
  if 'A' ≤ c ∧ c ≤ 'Z' then Char.ofNat (c.toNat + 32) else c

/-- The SQL `LIKE` predicate with SQLite's default behaviour (no
`ESCAPE`, `case_sensitive_like` off): `%` matches any sequence, `_`
matches any single character, and ordinary characters compare
ASCII-case-insensitively. -/
def likeM : List Char → List Char → Bool
  | [], ks => ks.isEmpty
  | c :: ps, ks =>
    if c = '%' then ks.tails.any (fun t => likeM ps t)
    else
      match ks with
      | [] => false
      | k :: ks2 =>
        if c = '_' then likeM ps ks2
        else (asciiFold c == asciiFold k) && likeM ps ks2

/-- Translation of `StateManager.get_keys` (lines 289-316): a falsy
prefix (`None` or the empty string) selects every key, otherwise rows
are filtered with `key LIKE '<prefix>%'`. -/
def getKeys (st : StateTable) (pre : Option String) : List String :=
  match pre with
  | Option.none => st.map Prod.fst
  | some p =>
    if p = "" then st.map Prod.fst
    else (st.map Prod.fst).filter (fun k => likeM (p.data ++ ['%']) k.data)

/-- Serialization followed by deserialization, the composite a
`set(k, v); get(k)` pair applies to the stored value. -/
def roundTrip (v : PyVal) : Option PyVal :=
  (serializeValue v).bind (fun row => deserializeValue row.1 row.2)

mutual

/-- A Python value that `json.dumps` can encode and whose decoding is
shape-preserving: string dict keys, and json-encodable leaves. -/
def jsonOkB : PyVal → Bool
  | .none => true
  | .bool _ => true
  | .int _ => true
  | .str _ => true
  | .datetime _ => false
  | .dict es => dictOkB es
  | .list es => listOkB es

def listOkB : List PyVal → Bool
  | [] => true
  | v :: vs => jsonOkB v && listOkB vs

def dictOkB : List (PyKey × PyVal) → Bool
  | [] => true
  | (k, v) :: es =>
    (match k with | .kstr _ => true | .kint _ => false) && jsonOkB v && dictOkB es

end

mutual

theorem pyJson_rt (v : PyVal) (h : jsonOkB v = true) :
    (pyToJson v).map jsonToPy = some v := by
  cases v with
  | none => rfl
  | bool b => rfl
  | int n => rfl
  | str s => rfl
  | datetime d => simp [jsonOkB] at h
  | dict es =>
    rw [jsonOkB] at h
    have hrt := dictJson_rt es h
    cases hd : dictToJson es with
    | none => rw [hd] at hrt; simp at hrt
    | some os =>
      rw [hd] at hrt
      simp only [Option.map_some', Option.some.injEq] at hrt
      simp [pyToJson, hd, jsonToPy, hrt]
  | list es =>
    rw [jsonOkB] at h
    have hrt := listJson_rt es h
    cases hd : listToJson es with
    | none => rw [hd] at hrt; simp at hrt
    | some os =>
      rw [hd] at hrt
      simp only [Option.map_some', Option.some.injEq] at hrt
      simp [pyToJson, hd, jsonToPy, hrt]

theorem listJson_rt (l : List PyVal) (h : listOkB l = true) :
    (listToJson l).map jsonListToPy = some l := by
  cases l with
  | nil => rfl
  | cons v vs =>
    rw [listOkB, Bool.and_eq_true] at h
    obtain ⟨hv, hvs⟩ := h
    have h1 := pyJson_rt v hv
    have h2 := listJson_rt vs hvs
    cases hj : pyToJson v with
    | none => rw [hj] at h1; simp at h1
    | some j =>
      rw [hj] at h1
      simp only [Option.map_some', Option.some.injEq] at h1
      cases hjs : listToJson vs with
      | none => rw [hjs] at h2; simp at h2
      | some js =>
        rw [hjs] at h2
        simp only [Option.map_some', Option.some.injEq] at h2
        simp [listToJson, hj, hjs, jsonListToPy, h1, h2]

theorem dictJson_rt (l : List (PyKey × PyVal)) (h : dictOkB l = true) :
    (dictToJson l).map jsonObjToPy = some l := by
  cases l with
  | nil => rfl
  | cons e es =>
    obtain ⟨k, v⟩ := e
    simp only [dictOkB, Bool.and_eq_true] at h
    obtain ⟨⟨hk, hv⟩, hes⟩ := h
    cases k with
    | kint n => simp at hk
    | kstr s =>
      have h1 := pyJson_rt v hv
      have h2 := dictJson_rt es hes
      cases hj : pyToJson v with
      | none => rw [hj] at h1; simp at h1
      | some j =>
        rw [hj] at h1
        simp only [Option.map_some', Option.some.injEq] at h1
        cases hjs : dictToJson es with
        | none => rw [hjs] at h2; simp at h2
        | some js =>
          rw [hjs] at h2
          simp only [Option.map_some', Option.some.injEq] at h2
          simp [dictToJson, hj, hjs, jsonObjToPy, keyToString, h1, h2]

end

/-- The value universe on which the store round-trips: every scalar,
every valid datetime, and every json-encodable mapping or sequence. -/
def goodVal : PyVal → Bool
  | .none => true
  | .bool _ => true
  | .int _ => true
  | .str _ => true
  | .datetime d => d.valid
  | .dict es => dictOkB es
  | .list es => listOkB es

theorem roundTrip_good {v : PyVal} (h : goodVal v = true) :
    roundTrip v = some v := by
  cases v with
  | none => rfl
  | bool b => cases b <;> rfl
  | int n =>
    show (parseIntChars (String.mk (intChars n)).data).map PyVal.int = some (.int n)
    rw [show (String.mk (intChars n)).data = intChars n from rfl,
      parseIntChars_intChars]
    rfl
  | str s =>
    show deserializeValue (.text s) "str" = some (.str s)
    rfl
  | datetime d =>
    rw [goodVal] at h
    show (parseIsoChars (String.mk (isoChars d)).data).map PyVal.datetime
      = some (.datetime d)
    rw [show (String.mk (isoChars d)).data = isoChars d from rfl,
      parseIsoChars_isoChars h]
    rfl
  | dict es =>
    rw [goodVal] at h
    have hrt := pyJson_rt (.dict es) (by rw [jsonOkB]; exact h)
    cases hd : pyToJson (.dict es) with
    | none => rw [hd] at hrt; simp at hrt
    | some j =>
      rw [hd] at hrt
      simp only [Option.map_some', Option.some.injEq] at hrt
      rw [roundTrip, serializeValue, hd]
      simp [deserializeValue, hrt]
  | list es =>
    rw [goodVal] at h
    have hrt := pyJson_rt (.list es) (by rw [jsonOkB]; exact h)
    cases hd : pyToJson (.list es) with
    | none => rw [hd] at hrt; simp at hrt
    | some j =>
      rw [hd] at hrt
      simp only [Option.map_some', Option.some.injEq] at hrt
      rw [roundTrip, serializeValue, hd]
      simp [deserializeValue, hrt]

/-- Row lookup after `INSERT OR REPLACE` finds the fresh row. -/
theorem lookupRow_set {st : StateTable} {key : String} {v : PyVal}
    {row : Payload × String} (h : serializeValue v = some row) :
    lookupRow (st.filter (fun r => !(r.1 == key)) ++ [(key, row)]) key
      = some row := by
  rw [lookupRow, List.find?_append]
  have hnone : (st.filter (fun r => !(r.1 == key))).find? (fun r => r.1 == key)
      = Option.none := by
    rw [List.find?_eq_none]
    intro r hr
    have := List.of_mem_filter hr
    simpa using this
  rw [hnone]
  simp

/-- A `set` followed by a `get` of the same key decodes exactly the
serialized value. -/
theorem get_set {st st2 : StateTable} {key : String} {v : PyVal}
    (hset : StateManager.set st key v = some st2) :
    StateManager.get st2 key = roundTrip v := by
  rw [StateManager.set] at hset
  cases hs : serializeValue v with
  | none => rw [hs] at hset; simp at hset
  | some row =>
    rw [hs] at hset
    simp only [Option.map_some', Option.some.injEq] at hset
    subst hset
    rw [StateManager.get, lookupRow_set hs, roundTrip, hs]
    obtain ⟨p, t⟩ := row
    rfl

/-! ## Backup filename generation (src/core/backup_engine.py 970-1000) -/

/-- Sanitization performed by `_generate_backup_filename`:
`service_name.replace(" ", "_").replace("/", "_")`.  Both patterns are
single characters, so the two successive `str.replace` calls are
exactly a per-character map. -/
def sanitizeChars (cs : List Char) : List Char :=
  cs.map (fun c => if c = ' ' ∨ c = '/' then '_' else c)

/-- The characters `datetime.now().strftime("%Y%m%d_%H%M%S")`
produces: zero-padded local wall-clock fields (microseconds are
dropped by this format). -/
def strftimeChars (d : DateTime) : List Char :=
  padDigits 4 d.year ++ (padDigits 2 d.month ++ (padDigits 2 d.day ++
    '_' :: (padDigits 2 d.hour ++ (padDigits 2 d.minute ++ padDigits 2 d.second))))

/-- Translation of `BackupEngine._generate_backup_filename`
(lines 970-1000); the wall clock read by `datetime.now()` is the
explicit `now` argument.  Output format:
`<safe_name>_<YYYYMMDD_HHMMSS>_<service_type>.<extension>`. -/
def generateBackupFilename (serviceName serviceType extension : String)
    (now : DateTime) : String :=
  String.mk (sanitizeChars serviceName.data ++
    '_' :: (strftimeChars now ++ '_' :: (serviceType.data ++ '.' :: extension.data)))

/-- Wall-clock comparison of two datetimes at one-second granularity
(the granularity of the `strftime` format above). -/
def clockLtB (a b : DateTime) : Bool :=
  a.year < b.year || (a.year = b.year && (a.month < b.month ||
    (a.month = b.month && (a.day < b.day || (a.day = b.day &&
      (a.hour < b.hour || (a.hour = b.hour && (a.minute < b.minute ||
        (a.minute = b.minute && a.second < b.second)))))))))

theorem list_lt_append {l1 l2 t1 t2 : List Char}
    (h : List.Lex (fun a b : Char => a < b) l1 l2)
    (hlen : l1.length = l2.length) :
    List.Lex (fun a b : Char => a < b) (l1 ++ t1) (l2 ++ t2) := by
  induction h generalizing t1 t2 with
  | nil => simp at hlen
  | cons h2 ih => exact List.Lex.cons (ih (by simpa using hlen))
  | rel h2 => exact List.Lex.rel h2

theorem list_lt_prefix (p : List Char) {l1 l2 : List Char}
    (h : List.Lex (fun a b : Char => a < b) l1 l2) :
    List.Lex (fun a b : Char => a < b) (p ++ l1) (p ++ l2) := by
  induction p with
  | nil => exact h
  | cons c cs ih => exact List.Lex.cons ih

/-- Zero-padded equal-width decimal renderings compare
lexicographically exactly as the numbers compare. -/
theorem padDigits_lt {k n1 n2 : Nat} (h1 : n1 < 10 ^ k) (h2 : n2 < 10 ^ k)
    (h : n1 < n2) :
    List.Lex (fun a b : Char => a < b) (padDigits k n1) (padDigits k n2) := by
  induction k generalizing n1 n2 with
  | zero =>
    exfalso
    simp only [pow_zero] at h2
    omega
  | succ k ih =>
    have hq1 : n1 / 10 < 10 ^ k := by
      rw [Nat.div_lt_iff_lt_mul (by norm_num)]
      calc n1 < 10 ^ (k + 1) := h1
        _ = 10 ^ k * 10 := by ring
    have hq2 : n2 / 10 < 10 ^ k := by
      rw [Nat.div_lt_iff_lt_mul (by norm_num)]
      calc n2 < 10 ^ (k + 1) := h2
        _ = 10 ^ k * 10 := by ring
    have hqle : n1 / 10 ≤ n2 / 10 := Nat.div_le_div_right (Nat.le_of_lt h)
    rcases Nat.lt_or_ge (n1 / 10) (n2 / 10) with hqlt | hqge
    · exact list_lt_append (ih hq1 hq2 hqlt)
        (by rw [padDigits_length, padDigits_length])
    · have hqeq : n1 / 10 = n2 / 10 := Nat.le_antisymm hqle hqge
      have hr : n1 % 10 < n2 % 10 := by omega
      rw [padDigits, padDigits, hqeq]
      apply list_lt_prefix
      exact List.Lex.rel
        (decDigit_lt (Nat.mod_lt n1 (by norm_num)) (Nat.mod_lt n2 (by norm_num)) hr)

theorem strftimeChars_length (d : DateTime) : (strftimeChars d).length = 15 := by
  simp [strftimeChars, padDigits_length]

/-- The `strftime` timestamp string is strictly monotone in the wall
clock (at second granularity), character-lexicographically. -/
theorem strftimeChars_lt {a b : DateTime} (ha : a.valid = true)
    (hb : b.valid = true) (h : clockLtB a b = true) :
    List.Lex (fun x y : Char => x < y) (strftimeChars a) (strftimeChars b) := by
  simp only [DateTime.valid, Bool.and_eq_true, decide_eq_true_eq] at ha hb
  have e4 : (10 : ℕ) ^ 4 = 10000 := by norm_num
  have e2 : (10 : ℕ) ^ 2 = 100 := by norm_num
  simp only [clockLtB, Bool.or_eq_true, Bool.and_eq_true, decide_eq_true_eq] at h
  rw [strftimeChars, strftimeChars]
  have hlen2 : ∀ x y : Nat, (padDigits 2 x).length = (padDigits 2 y).length := by
    intro x y; rw [padDigits_length, padDigits_length]
  rcases h with hy | ⟨hy, hmo | ⟨hmo, hda | ⟨hda, hh | ⟨hh, hmi | ⟨hmi, hs⟩⟩⟩⟩⟩
  · exact list_lt_append (padDigits_lt (by omega) (by omega) hy)
      (by rw [padDigits_length, padDigits_length])
  · rw [hy]
    apply list_lt_prefix
    exact list_lt_append (padDigits_lt (by omega) (by omega) hmo) (hlen2 _ _)
  · rw [hy, hmo]
    apply list_lt_prefix
    apply list_lt_prefix
    exact list_lt_append (padDigits_lt (by omega) (by omega) hda) (hlen2 _ _)
  · rw [hy, hmo, hda]
    apply list_lt_prefix
    apply list_lt_prefix
    apply list_lt_prefix
    apply List.Lex.cons
    exact list_lt_append (padDigits_lt (by omega) (by omega) hh) (hlen2 _ _)
  · rw [hy, hmo, hda, hh]
    apply list_lt_prefix
    apply list_lt_prefix
    apply list_lt_prefix
    apply List.Lex.cons
    apply list_lt_prefix
    exact list_lt_append (padDigits_lt (by omega) (by omega) hmi) (hlen2 _ _)
  · rw [hy, hmo, hda, hh, hmi]
    apply list_lt_prefix
    apply list_lt_prefix
    apply list_lt_prefix
    apply List.Lex.cons
    apply list_lt_prefix
    apply list_lt_prefix
    exact padDigits_lt (by omega) (by omega) hs

/-! ## Backup engine (src/core/backup_engine.py) -/

/-- ASCII lowercasing of a string, character by character.  Python's
`str.lower()` agrees with this on ASCII input; every string this code
base lowercases (service type names) is ASCII. -/
def lowerStr (s : String) : String := String.mk (s.data.map Char.toLower)

/-- Python truthiness of an optional string: `None` and the empty
string are falsy. -/
def falsyOpt : Option String → Bool
  | Option.none => true
  | some s => s == ""

/-- POSIX `Path.is_absolute()`: the path begins with a slash. -/
def isAbsolutePath (p : String) : Bool :=
  match p.data with
  | [] => false
  | c :: _ => c = '/'

/-- The value `config.get("global.backup.retention_days")` returns, as
seen by the `isinstance(retention_days, int)` check of the source:
an int, a bool (which IS an `int` instance in Python), or any other
non-int value. -/
inductive RetentionVal where
  | vint (n : Int)
  | vbool (b : Bool)
  | vother

/-- The source's acceptance test `isinstance(v, int) and v >= 1`,
with Python's `bool <: int` (`True` counts as `1`, `False` as `0`). -/
def retentionIsIntGe1 : RetentionVal → Bool
  | .vint n => n ≥ 1
  | .vbool b => b
  | .vother => false

/-- Translation of `BackupEngine._validate_backup_config`
(lines 89-132), which `BackupEngine.__init__` (line 82) runs
unconditionally, so a `.error` here is exactly a `BackupError` raised
by construction.  Arguments are the three values the config getters
return: `enabled` is `get("global.backup.enabled", True)`, `root` is
`get("global.backup.root")` (`None` when unset), `retentionDays` is
`get("global.backup.retention_days")`.  The `try/except` around
`Path(backup_root)` cannot fire (`Path` of a string does not raise)
and is not represented. -/
def validateBackupConfig (enabled : Bool) (root : Option String)
    (retentionDays : Option RetentionVal) : Except String Unit :=
  if !enabled then .ok ()
  else
    match root with
    | Option.none => .error "Backup root path is required but not configured"
    | some r =>
      if r == "" then .error "Backup root path is required but not configured"
      else if !(isAbsolutePath r) then .error "Backup root path must be absolute"
      else
        match retentionDays with
        | Option.none => .ok ()
        | some v =>
          if !(retentionIsIntGe1 v) then
            .error "Backup retention_days must be a positive integer"
          else .ok ()

/-- The `proxmox_backup_server` entry of the resolved backup config
dict, as read by destination selection.  Field values are what
`pbs_config.get(...)` returns (`Option.none` for an absent key). -/
structure PbsConfig where
  enabled : Bool
  server : Option String
  datastore : Option String
  username : Option String
deriving DecidableEq

/-- The `direct_storage` entry of the resolved backup config dict. -/
structure DirectConfig where
  enabled : Bool
  path : Option String
deriving DecidableEq

/-- The resolved backup config dict (`_get_backup_config`): the
backup root plus the two optional sub-configs. -/
structure BackupCfg where
  root : String
  pbs : Option PbsConfig
  directStorage : Option DirectConfig

/-- Outcome of the 5-second reachability probe
`requests.get(https://server:port/api2/json/version, timeout=5)`
followed by `raise_for_status()`: success, `requests.exceptions.
Timeout`, `requests.exceptions.ConnectionError`, or any other
`requests.exceptions.RequestException` (e.g. an HTTP error status). -/
inductive ProbeOutcome where
  | ok
  | timeout
  | connError
  | httpError

/-- The destination value object built by destination selection. -/
inductive Destination where
  | pbs (cfg : PbsConfig)
  | direct (path : String)
  | local (path : String)
deriving DecidableEq

/-- The `method` field of the returned destination dict.  The spec
names the `"pbs"` method `remote` (its "remote archive server" is the
Proxmox Backup Server). -/
def Destination.method : Destination → String
  | .pbs _ => "pbs"
  | .direct _ => "direct"
  | .local _ => "local"

/-- The direct-storage / local-fallback tail of destination selection
(steps 1b and 1c of `_determine_backup_destination`): an enabled
direct storage with a falsy path is a `BackupError`; an enabled one
with a path is chosen; otherwise the local backup root is used.  (The
shared-storage-looking check on the path only emits a warning and does
not alter the result.) -/
def checkDirectStorage (cfg : BackupCfg) : Except String Destination :=
  match cfg.directStorage with
  | some d =>
    if d.enabled then
      match d.path with
      | Option.none => .error "Direct storage is enabled but path is not configured"
      | some pth =>
        if pth == "" then .error "Direct storage is enabled but path is not configured"
        else .ok (.direct pth)
    else .ok (.local cfg.root)
  | Option.none => .ok (.local cfg.root)

/-- Translation of `BackupEngine._determine_backup_destination`
(lines 279-423).  The reachability probe's network outcome is the
explicit `probe` argument; `.error` is a raised `BackupError`. -/
def determineBackupDestination (serviceType : String) (cfg : BackupCfg)
    (probe : ProbeOutcome) : Except String Destination :=
  if ["vm", "lxc"].contains (lowerStr serviceType) then
    match cfg.pbs with
    | some p =>
      if p.enabled then
        if !(([p.server, p.datastore, p.username].filter falsyOpt).isEmpty) then
          .error "PBS is enabled but configuration is incomplete"
        else
          match probe with
          | .ok => .ok (.pbs p)
          | .timeout =>
            .error "PBS connectivity check failed: connection timed out after 5 seconds"
          | .connError => .error "PBS connectivity check failed: cannot connect"
          | .httpError => .error "PBS connectivity check failed"
      else checkDirectStorage cfg
    | Option.none => checkDirectStorage cfg
  else .ok (.local cfg.root)

/-- The execution-result dict of `_execute_backup_command` less its
`duration_seconds` field (wall-clock timing carries no information
any claim uses). -/
structure ExecResult where
  success : Bool
  backupPath : Option PyVal
  errorMessage : Option String

/-- Translation of `BackupEngine._execute_backup_command`
(lines 549-714).  The three possible plugin calls are explicit
outcome arguments (`.error e` is a raised exception with text `e`,
whose engine-side wrapping text is abbreviated to `e`): `pbsCall` for
`plugin.backup_to_pbs`, `directCall` for `plugin.backup_to_storage`
(whose Python return value is arbitrary, hence `PyVal`), `localCall`
for `plugin.backup`.  `now` is the wall clock used for generated
filenames; path joins render `Path / seg` as slash concatenation. -/
def executeBackupCommand (dryRun : Bool) (serviceName serviceType : String)
    (dest : Destination) (now : DateTime)
    (pbsCall : Except String Bool) (directCall : Except String PyVal)
    (localCall : Except String PyVal) : ExecResult :=
  if dryRun then
    match dest with
    | .pbs _ =>
      { success := true, backupPath := Option.none, errorMessage := Option.none }
    | .direct pth =>
      { success := true
        backupPath := some (.str (pth ++ "/" ++
          generateBackupFilename serviceName serviceType "tar.gz" now))
        errorMessage := Option.none }
    | .local root =>
      { success := true
        backupPath := some (.str (root ++ "/" ++ serviceName ++ "/" ++
          generateBackupFilename serviceName serviceType "tar.gz" now))
        errorMessage := Option.none }
  else
    match dest with
    | .pbs _ =>
      match pbsCall with
      | .ok true =>
        { success := true, backupPath := Option.none, errorMessage := Option.none }
      | .ok false =>
        { success := false, backupPath := Option.none
          errorMessage := some "PBS backup failed. Check PBS server logs for details." }
      | .error e =>
        { success := false, backupPath := Option.none, errorMessage := some e }
    | .direct _ =>
      match directCall with
      | .ok ret =>
        { success := true, backupPath := some ret, errorMessage := Option.none }
      | .error e =>
        { success := false, backupPath := Option.none, errorMessage := some e }
    | .local root =>
      match localCall with
      | .ok _ =>
        { success := true
          backupPath := some (.str (root ++ "/" ++ serviceName ++ "/" ++
            generateBackupFilename serviceName serviceType "tar.gz" now))
          errorMessage := Option.none }
      | .error e =>
        { success := false, backupPath := Option.none, errorMessage := some e }

/-- The two fields of a service descriptor that
`backup_all_services` consults. -/
structure ServiceEntry where
  name : String
  backup : Bool

/-- Modelled from the spec: `BackupEngine.backup_all_services`
(src/core/backup_engine.py lines 138-154) is declared but its body is
`raise NotImplementedError`, so the behaviour is taken from spec
§4.6 "Public operations": enumerate the configured services, skip
those with `backup=false`, call `backup_service(name)` for each and
record `false` if it raises (`backupService name = Option.none`), and
after all services invoke the notifier summary with the mapping —
except that an empty mapping is not sent (empty inventory → no
notify).  The returned pair is (the result mapping in service order,
whether the notifier summary was invoked). -/
def backupAllServices (services : List ServiceEntry)
    (backupService : String → Option Bool) : List (String × Bool) × Bool :=
  let results := (services.filter (fun s => s.backup)).map
    (fun s => (s.name, (backupService s.name).getD false))
  (results, !results.isEmpty)

/-! ## Config loader (src/core/config_loader.py) -/

/-- A parsed YAML value (the dictionaries `_merge_configs` merges). -/
inductive YVal where
  | str (s : String)
  | int (n : Int)
  | bool (b : Bool)
  | null
  | list (elems : List YVal)
  | dict (entries : List (String × YVal))

/-- Python dict read: first (only) binding of a key. -/
def getKey (d : List (String × YVal)) (k : String) : Option YVal :=
  (d.find? (fun e => e.1 == k)).map Prod.snd

/-- Python dict write: an existing key keeps its position, a new key
is appended. -/
def setKey (d : List (String × YVal)) (k : String) (v : YVal) :
    List (String × YVal) :=
  if d.any (fun e => e.1 == k) then
    d.map (fun e => if e.1 == k then (k, v) else e)
  else d ++ [(k, v)]

mutual

/-- Translation of `ConfigLoader._merge_configs` (lines 370-406),
iterating over the override dict's entries in order; `mergeOne` is the
body of the `for key, value in override.items()` loop. -/
def mergeConfigs : List (String × YVal) → List (String × YVal) →
    List (String × YVal)
  | base, [] => base
  | base, (k, v) :: rest => mergeConfigs (mergeOne base k v) rest
termination_by base ov => (sizeOf ov, 0)

/-- One override entry: a `services` list is appended onto an existing
`services` list, two nested dicts merge recursively, anything else
(scalars, list replacement, new keys) overwrites. -/
def mergeOne (base : List (String × YVal)) (k : String) :
    YVal → List (String × YVal)
  | .list l =>
    if k = "services" then
      match getKey base k with
      | some (.list bl) => setKey base k (.list (bl ++ l))
      | _ => setKey base k (.list l)
    else setKey base k (.list l)
  | .dict od =>
    match getKey base k with
    | some (.dict bd) => setKey base k (.dict (mergeConfigs bd od))
    | _ => setKey base k (.dict od)
  | v => setKey base k v
termination_by v => (sizeOf v, 1)

end

/-- The fields of a raw service mapping that the `ServiceConfig`
validators consult. -/
structure RawService where
  name : String
  type : String
  vmid : Option Int
  node : Option String
  containerName : Option String
  unitName : Option String
deriving DecidableEq

/-- Translation of the `ServiceConfig` validators
(src/core/config_loader.py lines 207-289): the type enum (normalized
to lowercase), the vmid range check, and the per-kind required-field
checks.  `.ok` returns the descriptor with its normalized type. -/
def validateService (s : RawService) : Except String RawService :=
  let t := lowerStr s.type
  if !(["docker", "systemd", "vm", "lxc", "generic", "host"].contains t) then
    .error "Service type must be one of the allowed types"
  else if (match s.vmid with
      | some v => decide (v < 100) || decide (v > 999999)
      | Option.none => false) then
    .error "Proxmox VMID must be between 100 and 999999"
  else if (t == "vm" || t == "lxc") && s.vmid.isNone then
    .error "vm and lxc services require the vmid field"
  else if (t == "vm" || t == "lxc") && s.node.isNone then
    .error "vm and lxc services require the node field"
  else if t == "docker" && s.containerName.isNone then
    .error "docker services require the container_name field"
  else if t == "systemd" && s.unitName.isNone then
    .error "systemd services require the service_name field"
  else .ok { s with type := t }

/-- Translation of the `services` field validation of `HomeLabConfig`
(lines 292-299): `services: List[ServiceConfig]` validates every
element independently.  `HomeLabConfig` declares no cross-service
validator — in particular nothing inspects two descriptors together,
so no name-uniqueness check exists. -/
def validateServicesList : List RawService → Except String (List RawService)
  | [] => .ok []
  | s :: rest => do
    let v ← validateService s
    let vs ← validateServicesList rest
    pure (v :: vs)

/-- Translation of `ConfigLoader.get_service_config` (lines 548-568):
linear scan, first descriptor whose name matches. -/
def getServiceConfig (services : List RawService) (serviceName : String) :
    Option RawService :=
  services.find? (fun s => s.name == serviceName)

/-! ## Proxmox adapter (src/plugins/hypervisors/proxmox.py) -/

/-- One entry of the cluster resources index
(`api.cluster.resources.get(type=...)`); `resource.get` returns
`None` for absent fields. -/
structure ClusterResource where
  vmid : Option Int
  node : Option String

/-- Outcome of the cluster resources query as seen by the
`try/except` of `_get_actual_node`: a resource list, a builtin
`ConnectionError` (what `_get_api_client` raises when it cannot build
a client), or any other exception. -/
inductive LookupOutcome where
  | ok (resources : List ClusterResource)
  | connError
  | apiError

/-- The vm/lxc fields `_get_actual_node` reads. -/
structure VmService where
  vmid : Int
  node : String

/-- Translation of `ProxmoxPlugin._get_actual_node` (lines 170-228):
scan the cluster resources for the service's vmid and return that
entry's node; a vmid absent from the index, or any non-connection
exception, falls back to the configured hint node; a builtin
`ConnectionError` is re-raised (`.error ()`). -/
def getActualNode (svc : VmService) (lookup : LookupOutcome) :
    Except Unit (Option String) :=
  match lookup with
  | .connError => .error ()
  | .apiError => .ok (some svc.node)
  | .ok resources =>
    match resources.find? (fun r => r.vmid == some svc.vmid) with
    | some r => .ok r.node
    | Option.none => .ok (some svc.node)

/-! ## Supporting lemmas for the claim theorems -/

/-- A pattern fragment with no SQL `LIKE` wildcards. -/
def noWildChars (cs : List Char) : Bool :=
  cs.all (fun c => !(c == '%') && !(c == '_'))

theorem likeM_percent_nil (ks : List Char) : likeM ['%'] ks = true := by
  have hunf : ∀ xs : List Char,
      likeM ['%'] xs = xs.tails.any (fun t => likeM [] t) := by
    intro xs
    rw [likeM.eq_def]
    simp
  induction ks with
  | nil => rfl
  | cons k ks ih =>
    rw [hunf] at ih ⊢
    rw [List.tails_cons, List.any_cons]
    rw [ih]
    simp

/-- On a wildcard-free fragment `p`, the pattern `p%` matches exactly
the keys whose ASCII-folded characters start with the ASCII-folded
fragment. -/
theorem likeM_prefix_pattern {p : List Char} (hp : noWildChars p = true)
    (k : List Char) :
    likeM (p ++ ['%']) k = (p.map asciiFold).isPrefixOf (k.map asciiFold) := by
  induction p generalizing k with
  | nil =>
    simp only [List.nil_append, List.map_nil, likeM_percent_nil]
    cases k <;> simp [List.isPrefixOf]
  | cons c cs ih =>
    simp only [noWildChars, List.all_cons, Bool.and_eq_true, Bool.not_eq_true',
      beq_eq_false_iff_ne, ne_eq] at hp
    obtain ⟨⟨hc1, hc2⟩, hcs⟩ := hp
    have hcs2 : noWildChars cs = true := by
      rw [noWildChars, List.all_eq_true]
      intro x hx
      have := (List.all_eq_true.mp hcs) x hx
      simpa using this
    have ihcs := ih hcs2
    cases k with
    | nil =>
      rw [List.cons_append, likeM, if_neg hc1]
      simp [List.isPrefixOf]
    | cons k1 ks =>
      rw [List.cons_append, likeM, if_neg hc1]
      simp only [if_neg hc2]
      rw [ihcs ks]
      simp [List.isPrefixOf]

theorem find_map_set {k : String} {v : YVal} (d : List (String × YVal))
    (hany : (d.any (fun e => e.1 == k)) = true) :
    ((d.map (fun e => if e.1 == k then (k, v) else e)).find?
      (fun e => e.1 == k)) = some (k, v) := by
  induction d with
  | nil => simp at hany
  | cons a as ih =>
    simp only [List.any_cons, Bool.or_eq_true] at hany
    simp only [List.map_cons]
    by_cases ha : (a.1 == k) = true
    · rw [if_pos ha, List.find?_cons_of_pos]
      simp
    · rw [if_neg ha, List.find?_cons_of_neg]
      · exact ih (hany.resolve_left ha)
      · simpa using ha

theorem find_map_set_ne {k k2 : String} (h : k ≠ k2) {v : YVal}
    (d : List (String × YVal)) :
    ((d.map (fun e => if e.1 == k then (k, v) else e)).find?
      (fun e => e.1 == k2)) = d.find? (fun e => e.1 == k2) := by
  induction d with
  | nil => rfl
  | cons a as ih =>
    simp only [List.map_cons]
    by_cases ha : (a.1 == k) = true
    · have hak : a.1 = k := by simpa using ha
      rw [if_pos ha, List.find?_cons_of_neg, List.find?_cons_of_neg]
      · exact ih
      · simp only [hak]
        simpa using h
      · simpa using h
    · rw [if_neg ha]
      by_cases ha2 : (a.1 == k2) = true
      · simp only [List.find?_cons, ha2]
      · have ha2f : (a.1 == k2) = false := by simpa using ha2
        simp only [List.find?_cons, ha2f]
        exact ih

theorem getKey_setKey_self (d : List (String × YVal)) (k : String) (v : YVal) :
    getKey (setKey d k v) k = some v := by
  by_cases hany : (d.any (fun e => e.1 == k)) = true
  · rw [setKey, if_pos hany, getKey, find_map_set d hany]
    rfl
  · rw [setKey, if_neg hany, getKey, List.find?_append]
    have hnone : d.find? (fun e => e.1 == k) = Option.none := by
      rw [List.find?_eq_none]
      intro e he hbeq
      exact hany (List.any_eq_true.mpr ⟨e, he, hbeq⟩)
    rw [hnone]
    simp

theorem getKey_setKey_ne (d : List (String × YVal)) {k k2 : String}
    (h : k ≠ k2) (v : YVal) : getKey (setKey d k v) k2 = getKey d k2 := by
  by_cases hany : (d.any (fun e => e.1 == k)) = true
  · rw [setKey, if_pos hany, getKey, find_map_set_ne h d, getKey]
  · rw [setKey, if_neg hany, getKey, List.find?_append]
    have hone : (([(k, v)] : List (String × YVal)).find? (fun e => e.1 == k2))
        = Option.none := by
      rw [List.find?_eq_none]
      intro e he
      simp only [List.mem_singleton] at he
      subst he
      simpa using h
    rw [hone, Option.or_none, getKey]

/-- A single merge step for an override entry `(k, v)` writes only at
key `k`. -/
theorem getKey_mergeOne_ne (base : List (String × YVal)) {k key : String}
    (h : k ≠ key) (v : YVal) :
    getKey (mergeOne base k v) key = getKey base key := by
  cases v with
  | list l =>
    by_cases hs : k = "services"
    · subst hs
      cases hg : getKey base "services" with
      | none => simp [mergeOne, hg, getKey_setKey_ne base h]
      | some bv => cases bv <;> simp [mergeOne, hg, getKey_setKey_ne base h]
    · simp [mergeOne, hs, getKey_setKey_ne base h]
  | dict od =>
    cases hg : getKey base k with
    | none => simp [mergeOne, hg, getKey_setKey_ne base h]
    | some bv => cases bv <;> simp [mergeOne, hg, getKey_setKey_ne base h]
  | str s => simp [mergeOne, getKey_setKey_ne base h]
  | int n => simp [mergeOne, getKey_setKey_ne base h]
  | bool b => simp [mergeOne, getKey_setKey_ne base h]
  | null => simp [mergeOne, getKey_setKey_ne base h]

/-- `_merge_configs` leaves a key untouched when no override entry
carries that key. -/
theorem getKey_mergeConfigs_of_absent {key : String} :
    ∀ (ov : List (String × YVal)) (base : List (String × YVal)),
    (∀ e ∈ ov, e.1 ≠ key) → getKey (mergeConfigs base ov) key = getKey base key
  | [], base, _ => by rw [mergeConfigs]
  | (k, v) :: rest, base, hab => by
    have hk : k ≠ key := hab (k, v) (List.mem_cons_self _ _)
    have hrest : ∀ e ∈ rest, e.1 ≠ key := fun e he => hab e (List.mem_cons_of_mem _ he)
    rw [mergeConfigs]
    rw [getKey_mergeConfigs_of_absent rest _ hrest]
    exact getKey_mergeOne_ne base hk v

/-- The `services` key of `_merge_configs`: when the override document
carries a `services` list (Python dict keys are unique, hence the
`Nodup` hypothesis) and the base document already holds one, the
merged document holds their concatenation, base first. -/
theorem mergeConfigs_services_append :
    ∀ (ov : List (String × YVal)) (base : List (String × YVal))
      (bs os : List YVal),
    (ov.map Prod.fst).Nodup → ("services", YVal.list os) ∈ ov →
    getKey base "services" = some (.list bs) →
    getKey (mergeConfigs base ov) "services" = some (.list (bs ++ os))
  | [], _, _, _, _, hmem, _ => absurd hmem (List.not_mem_nil _)
  | (k, v) :: rest, base, bs, os, hnd, hmem, hbase => by
    rw [List.map_cons, List.nodup_cons] at hnd
    obtain ⟨hknotin, hndrest⟩ := hnd
    rw [mergeConfigs]
    rcases List.mem_cons.mp hmem with heq | hmem2
    · obtain ⟨hk, hv⟩ := Prod.mk.injEq .. ▸ heq.symm
      subst hk
      subst hv
      have hstep : mergeOne base "services" (.list os)
          = setKey base "services" (.list (bs ++ os)) := by
        simp [mergeOne, hbase]
      rw [hstep]
      have hrest : ∀ e ∈ rest, e.1 ≠ "services" := by
        intro e he hekey
        apply hknotin
        rw [← hekey]
        exact List.mem_map.mpr ⟨e, he, rfl⟩
      rw [getKey_mergeConfigs_of_absent rest _ hrest, getKey_setKey_self]
    · have hk : k ≠ "services" := by
        intro hkk
        subst hkk
        apply hknotin
        have := List.mem_map_of_mem Prod.fst hmem2
        simpa using this
      have hbase2 : getKey (mergeOne base k v) "services" = some (.list bs) := by
        rw [getKey_mergeOne_ne base hk v, hbase]
      exact mergeConfigs_services_append rest _ bs os hndrest hmem2 hbase2

/-! ## Claim theorems -/

/-- C1: for every configuration, `backup_all_services()` returns a
mapping from service name to success boolean that contains exactly the
configured services with `backup=true` (services with `backup=false`
are absent from the mapping), and for an empty service inventory it
returns the empty mapping without invoking the notifier.  Settled
against the spec model `backupAllServices` (the source body is
`raise NotImplementedError`; see that definition's doc comment). -/
theorem C1_backup_all_services :
    (∀ (services : List ServiceEntry) (f : String → Option Bool) (n : String),
      (∃ b, (n, b) ∈ (backupAllServices services f).1) ↔
        ∃ s ∈ services, s.name = n ∧ s.backup = true) ∧
    (∀ f : String → Option Bool, backupAllServices [] f = ([], false)) := by
  constructor
  · intro services f n
    simp only [backupAllServices, List.mem_map, List.mem_filter, Prod.mk.injEq]
    constructor
    · rintro ⟨b, s, ⟨hs, hb⟩, hname, hval⟩
      exact ⟨s, hs, hname, hb⟩
    · rintro ⟨s, hs, hname, hb⟩
      exact ⟨(f s.name).getD false, s, ⟨hs, hb⟩, hname, rfl⟩
  · intro f
    rfl

theorem C1_backup_all_services_witness :
    (∃ b, ("svc", b) ∈
      (backupAllServices [⟨"svc", true⟩, ⟨"skip", false⟩]
        (fun _ => some true)).1) ∧
    backupAllServices [] (fun _ => some true) = ([], false) :=
  ⟨(C1_backup_all_services.1 [⟨"svc", true⟩, ⟨"skip", false⟩]
      (fun _ => some true) "svc").mpr
      ⟨⟨"svc", true⟩, List.mem_cons_self _ _, rfl, rfl⟩,
    C1_backup_all_services.2 (fun _ => some true)⟩

/-- C9 (amended): before a Proxmox operation the node used is the one
the cluster resources index reports for the workload's vmid (the
descriptor's `node` is a hint); a vmid absent from the index, or a
lookup failing with a non-connection exception, falls back to the
configured hint node — but a builtin `ConnectionError` raised while
obtaining the API client is re-raised instead of falling back (the
claim's unconditional fallback is refuted by `C9_counterexample`). -/
theorem C9_get_actual_node :
    (∀ (svc : VmService) (resources : List ClusterResource)
        (r : ClusterResource),
      resources.find? (fun x => x.vmid == some svc.vmid) = some r →
      getActualNode svc (.ok resources) = .ok r.node) ∧
    (∀ (svc : VmService) (resources : List ClusterResource),
      resources.find? (fun x => x.vmid == some svc.vmid) = Option.none →
      getActualNode svc (.ok resources) = .ok (some svc.node)) ∧
    (∀ svc : VmService, getActualNode svc .apiError = .ok (some svc.node)) ∧
    (∀ svc : VmService, getActualNode svc .connError = .error ()) := by
  refine ⟨?_, ?_, fun _ => rfl, fun _ => rfl⟩
  · intro svc resources r hfind
    simp [getActualNode, hfind]
  · intro svc resources hfind
    simp [getActualNode, hfind]

theorem C9_get_actual_node_witness :
    getActualNode ⟨100, "node-A"⟩
      (.ok [⟨some 100, some "node-B"⟩]) = .ok (some "node-B") :=
  C9_get_actual_node.1 ⟨100, "node-A"⟩ [⟨some 100, some "node-B"⟩]
    ⟨some 100, some "node-B"⟩ rfl

/-- C9 counterexample: a cluster lookup that fails with a builtin
`ConnectionError` does not fall back to the configured hint node; the
exception is re-raised. -/
theorem C9_counterexample :
    getActualNode ⟨100, "node-A"⟩ .connError = .error () ∧
    getActualNode ⟨100, "node-A"⟩ .connError ≠ .ok (some "node-A") :=
  ⟨rfl, by simp [getActualNode]⟩

/-- C10: for direct-method backups (outside dry-run),
`_execute_backup_command` reports `success=True` whenever the plugin's
`backup_to_storage` call returns without raising, whatever value it
returns: the value is recorded as `backup_path`, and the success flag
does not depend on it — a plugin returning a failure indicator such as
Python `False` or `None` is still recorded as a successful backup. -/
theorem C10_direct_success_ignores_value
    (serviceName serviceType pth : String) (now : DateTime)
    (pbsCall : Except String Bool) (localCall : Except String PyVal)
    (ret : PyVal) :
    executeBackupCommand false serviceName serviceType (.direct pth) now
      pbsCall (.ok ret) localCall
      = { success := true, backupPath := some ret,
          errorMessage := Option.none } := rfl

/-- The root checks of the claim: unset, empty, or not absolute. -/
def rootBad : Option String → Bool
  | Option.none => true
  | some r => r == "" || !isAbsolutePath r

/-- The retention check of the claim, applied only to a set value. -/
def retBad : Option RetentionVal → Bool
  | Option.none => false
  | some v => !retentionIsIntGe1 v

/-- C3 (amended): constructing a `BackupEngine` validates the backup
configuration only when the backup subsystem is enabled
(`global.backup.enabled`, default true): it then raises a typed
`BackupError` exactly when the backup root is unset/empty or not an
absolute path, or `retention_days` is set and is not an integer ≥ 1.
When backup is disabled, construction performs none of these checks
(refuting the claim's unconditional reading, see
`C3_counterexample`); an unset `retention_days` is likewise not an
error. -/
theorem C3_validate_backup_config :
    (∀ (root : Option String) (ret : Option RetentionVal),
      validateBackupConfig false root ret = .ok ()) ∧
    (∀ (root : Option String) (ret : Option RetentionVal),
      (validateBackupConfig true root ret).isOk
        = (!rootBad root && !retBad ret)) := by
  constructor
  · intro root ret
    rfl
  · intro root ret
    cases root with
    | none => rfl
    | some r =>
      by_cases hr : (r == "") = true
      · simp [validateBackupConfig, rootBad, hr, Except.isOk, Except.toBool]
      · by_cases habs : isAbsolutePath r = true
        · cases ret with
          | none =>
            simp [validateBackupConfig, rootBad, retBad, hr, habs,
              Except.isOk, Except.toBool]
          | some v =>
            by_cases hv : retentionIsIntGe1 v = true
            · simp [validateBackupConfig, rootBad, retBad, hr, habs, hv,
                Except.isOk, Except.toBool]
            · simp [validateBackupConfig, rootBad, retBad, hr, habs, hv,
                Except.isOk, Except.toBool]
        · simp [validateBackupConfig, rootBad, retBad, hr, habs,
            Except.isOk, Except.toBool]

/-- C3 counterexample: the backup root is unset — a failing check by
the claim's list — yet with the backup subsystem disabled the
constructor raises nothing and validation returns successfully. -/
theorem C3_counterexample :
    rootBad Option.none = true ∧
    validateBackupConfig false Option.none Option.none = .ok () :=
  ⟨rfl, rfl⟩

theorem vmlxc_cases {s : String}
    (h : (["vm", "lxc"] : List String).contains s = true) :
    ¬ s = "vm" → s = "lxc" := by
  intro hne
  rcases (by simpa using h : s = "vm" ∨ s = "lxc") with h1 | h1
  · exact absurd h1 hne
  · exact h1

theorem checkDirect_method {cfg : BackupCfg} {dest : Destination}
    (h : checkDirectStorage cfg = .ok dest) :
    dest.method ∈ (["pbs", "direct", "local"] : List String) := by
  simp only [checkDirectStorage] at h
  split at h
  · split at h
    · split at h
      · simp at h
      · split at h
        · simp at h
        · simp only [Except.ok.injEq] at h
          subst h
          simp [Destination.method]
    · simp only [Except.ok.injEq] at h
      subst h
      simp [Destination.method]
  · simp only [Except.ok.injEq] at h
    subst h
    simp [Destination.method]

/-- C5: every destination `_determine_backup_destination` returns has
`method` among pbs/direct/local — the spec's `remote` names the code's
`"pbs"` method (its "remote archive server" is the Proxmox Backup
Server); for every service whose kind is not vm or lxc the method is
always `local`; and for vm/lxc, an enabled, fully configured and
reachable PBS is selected even when direct shared storage is also
enabled (total priority remote > direct > local). -/
theorem C5_destination_method :
    (∀ (serviceType : String) (cfg : BackupCfg) (probe : ProbeOutcome)
        (dest : Destination),
      determineBackupDestination serviceType cfg probe = .ok dest →
      dest.method ∈ (["pbs", "direct", "local"] : List String)) ∧
    (∀ (serviceType : String) (cfg : BackupCfg) (probe : ProbeOutcome),
      (["vm", "lxc"] : List String).contains (lowerStr serviceType) = false →
      determineBackupDestination serviceType cfg probe = .ok (.local cfg.root)) ∧
    (∀ (serviceType : String) (cfg : BackupCfg) (p : PbsConfig),
      (["vm", "lxc"] : List String).contains (lowerStr serviceType) = true →
      cfg.pbs = some p → p.enabled = true →
      falsyOpt p.server = false → falsyOpt p.datastore = false →
      falsyOpt p.username = false →
      determineBackupDestination serviceType cfg .ok = .ok (.pbs p)) := by
  refine ⟨?_, ?_, ?_⟩
  · intro serviceType cfg probe dest h
    unfold determineBackupDestination at h
    split at h
    · split at h
      · split at h
        · split at h
          · simp at h
          · split at h
            · simp only [Except.ok.injEq] at h
              subst h
              simp [Destination.method]
            · simp at h
            · simp at h
            · simp at h
        · exact checkDirect_method h
      · exact checkDirect_method h
    · simp only [Except.ok.injEq] at h
      subst h
      simp [Destination.method]
  · intro serviceType cfg probe hc
    unfold determineBackupDestination
    rw [if_neg]
    simpa using hc
  · intro serviceType cfg p hc hpbs hen hs hd hu
    simp [determineBackupDestination, hpbs, hen, hs, hd, hu, List.filter]
    exact vmlxc_cases hc

theorem C5_destination_method_witness :
    Destination.method (.direct "/mnt/x") ∈ (["pbs", "direct", "local"] : List String) ∧
    determineBackupDestination "docker"
      ⟨"/b", Option.none, Option.none⟩ .ok = .ok (.local "/b") ∧
    determineBackupDestination "vm"
      ⟨"/b", some ⟨true, some "s", some "d", some "u"⟩,
        some ⟨true, some "/mnt/x"⟩⟩ .ok
      = .ok (.pbs ⟨true, some "s", some "d", some "u"⟩) :=
  ⟨C5_destination_method.1 "vm"
      ⟨"/b", Option.none, some ⟨true, some "/mnt/x"⟩⟩ .ok (.direct "/mnt/x") rfl,
    C5_destination_method.2.1 "docker" ⟨"/b", Option.none, Option.none⟩ .ok rfl,
    C5_destination_method.2.2 "vm"
      ⟨"/b", some ⟨true, some "s", some "d", some "u"⟩,
        some ⟨true, some "/mnt/x"⟩⟩
      ⟨true, some "s", some "d", some "u"⟩ rfl rfl rfl rfl rfl rfl⟩

/-- C6: for a vm/lxc service with PBS (the spec's remote archive
server) enabled, a falsy required field among server/datastore/
username (the spec's host/datastore/user), or a reachability probe
that times out or cannot connect, makes
`_determine_backup_destination` raise a `BackupError` — it returns no
destination at all, so direct or local is never silently
substituted. -/
theorem C6_pbs_failure_raises
    (serviceType : String) (cfg : BackupCfg) (p : PbsConfig)
    (probe : ProbeOutcome)
    (hvm : (["vm", "lxc"] : List String).contains (lowerStr serviceType) = true)
    (hpbs : cfg.pbs = some p) (hen : p.enabled = true)
    (hfail :
      (falsyOpt p.server || falsyOpt p.datastore || falsyOpt p.username) = true
        ∨ probe = .timeout ∨ probe = .connError) :
    ∃ e, determineBackupDestination serviceType cfg probe = .error e := by
  have hmissing :
      (falsyOpt p.server || falsyOpt p.datastore || falsyOpt p.username) = true →
      ([p.server, p.datastore, p.username].filter falsyOpt).isEmpty = false := by
    intro hm
    have hm2 : (falsyOpt p.server = true ∨ falsyOpt p.datastore = true) ∨
        falsyOpt p.username = true := by simpa using hm
    have hmem : ∃ x ∈ [p.server, p.datastore, p.username], falsyOpt x = true := by
      rcases hm2 with (hs | hd) | hu
      · exact ⟨p.server, by simp, hs⟩
      · exact ⟨p.datastore, by simp, hd⟩
      · exact ⟨p.username, by simp, hu⟩
    obtain ⟨x, hx1, hx2⟩ := hmem
    have hxf : x ∈ List.filter falsyOpt [p.server, p.datastore, p.username] :=
      List.mem_filter.mpr ⟨hx1, hx2⟩
    rw [Bool.eq_false_iff]
    intro hemp
    rw [List.isEmpty_iff] at hemp
    rw [hemp] at hxf
    exact List.not_mem_nil _ hxf
  rcases hfail with hm | rfl | rfl
  · refine ⟨"PBS is enabled but configuration is incomplete", ?_⟩
    simp [determineBackupDestination, hpbs, hen, hmissing hm]
    exact vmlxc_cases hvm
  · by_cases hmiss :
        ([p.server, p.datastore, p.username].filter falsyOpt).isEmpty = true
    · refine ⟨"PBS connectivity check failed: connection timed out after 5 seconds", ?_⟩
      simp [determineBackupDestination, hpbs, hen, hmiss]
      exact vmlxc_cases hvm
    · have hmf : ([p.server, p.datastore, p.username].filter falsyOpt).isEmpty
          = false := Bool.eq_false_iff.mpr hmiss
      refine ⟨"PBS is enabled but configuration is incomplete", ?_⟩
      simp [determineBackupDestination, hpbs, hen, hmf]
      exact vmlxc_cases hvm
  · by_cases hmiss :
        ([p.server, p.datastore, p.username].filter falsyOpt).isEmpty = true
    · refine ⟨"PBS connectivity check failed: cannot connect", ?_⟩
      simp [determineBackupDestination, hpbs, hen, hmiss]
      exact vmlxc_cases hvm
    · have hmf : ([p.server, p.datastore, p.username].filter falsyOpt).isEmpty
          = false := Bool.eq_false_iff.mpr hmiss
      refine ⟨"PBS is enabled but configuration is incomplete", ?_⟩
      simp [determineBackupDestination, hpbs, hen, hmf]
      exact vmlxc_cases hvm

theorem C6_pbs_failure_raises_witness :
    ∃ e, determineBackupDestination "vm"
      ⟨"/backups", some ⟨true, some "pbs.local", Option.none, some "root@pam"⟩,
        some ⟨true, some "/mnt/x"⟩⟩ .ok = .error e :=
  C6_pbs_failure_raises "vm"
    ⟨"/backups", some ⟨true, some "pbs.local", Option.none, some "root@pam"⟩,
      some ⟨true, some "/mnt/x"⟩⟩
    ⟨true, some "pbs.local", Option.none, some "root@pam"⟩ .ok
    rfl rfl rfl (Or.inl (by decide))

/-- C2 (amended): `get_keys(prefix)` filters with SQL
`LIKE '<prefix>%'`, whose default SQLite semantics compares
ASCII-case-insensitively and treats a `%` or `_` inside the prefix as
a wildcard: for a wildcard-free prefix it returns exactly the stored
keys that begin with the prefix up to ASCII case (the claim's
case-sensitive comparison is refuted by `C2_counterexample`); an
absent — or empty — prefix returns every stored key. -/
theorem C2_get_keys :
    (∀ st : StateTable, getKeys st Option.none = st.map Prod.fst) ∧
    (∀ st : StateTable, getKeys st (some "") = st.map Prod.fst) ∧
    (∀ (st : StateTable) (p : String), p ≠ "" → noWildChars p.data = true →
      getKeys st (some p) = (st.map Prod.fst).filter
        (fun k => (p.data.map asciiFold).isPrefixOf (k.data.map asciiFold))) := by
  refine ⟨fun st => rfl, fun st => by simp [getKeys], ?_⟩
  intro st p hne hw
  rw [getKeys, if_neg hne]
  congr 1
  funext k
  exact likeM_prefix_pattern hw k.data

theorem C2_get_keys_witness :
    getKeys [("backup.a", (Payload.text "x", "str")),
      ("other", (Payload.text "y", "str"))] (some "backup.")
      = ["backup.a"] := by
  rw [C2_get_keys.2.2 _ "backup." (by decide) (by decide)]
  decide

/-- C2 counterexample: the stored key `"abc"` does not begin with the
prefix `"ABC"` under case-sensitive comparison, yet `get_keys("ABC")`
returns it — SQLite's `LIKE` compares ASCII letters
case-insensitively. -/
theorem C2_counterexample :
    getKeys [("abc", (Payload.text "x", "str"))] (some "ABC") = ["abc"] ∧
    ("ABC".data.isPrefixOf "abc".data) = false := by
  constructor
  · decide
  · decide

/-- C4 (amended): for every key and every value of type null, bool,
int, string, valid datetime, or a json-encodable mapping/sequence
(string keys, leaves among the other supported non-datetime types),
`set(k, v)` followed by `get(k)` returns a value equal to `v`; in
particular booleans round-trip as booleans under the `bool` type tag
(checked before `int` in the source, since Python's `bool` is an
`int` subclass) and are never coerced to integers.  Mappings with
non-string keys do not round-trip — the JSON encoding coerces their
keys to strings (`C4_counterexample`) — and float values are outside
this embedding. -/
theorem C4_set_get_roundtrip (st st2 : StateTable) (k : String) (v : PyVal)
    (hgood : goodVal v = true)
    (hset : StateManager.set st k v = some st2) :
    StateManager.get st2 k = some v := by
  rw [get_set hset, roundTrip_good hgood]

theorem C4_set_get_roundtrip_witness :
    goodVal (.bool true) = true ∧
    StateManager.set [] "flag" (.bool true)
      = some [("flag", (Payload.text "True", "bool"))] ∧
    StateManager.get [("flag", (Payload.text "True", "bool"))] "flag"
      = some (.bool true) :=
  ⟨rfl, rfl, C4_set_get_roundtrip [] _ "flag" (.bool true) rfl rfl⟩

/-- C4 counterexample: a mapping with the int key `1` comes back with
the string key `"1"` — `json.dumps` coerces non-string dict keys —
so `set(k, {1: 2}); get(k)` is not equal to `{1: 2}`. -/
theorem C4_counterexample :
    roundTrip (PyVal.dict [(PyKey.kint 1, PyVal.int 2)])
      = some (PyVal.dict [(PyKey.kstr "1", PyVal.int 2)]) ∧
    some (PyVal.dict [(PyKey.kstr "1", PyVal.int 2)])
      ≠ some (PyVal.dict [(PyKey.kint 1, PyVal.int 2)]) := by
  constructor
  · have h1 : dictToJson [(PyKey.kint 1, PyVal.int 2)]
        = some [("1", Json.int 2)] := by
      simp [dictToJson, pyToJson, keyToString, intChars, natChars]
      decide
    simp [roundTrip, serializeValue, pyToJson, h1, deserializeValue, jsonToPy,
      jsonObjToPy]
  · simp

/-- C7 (amended): the services lists of overlay documents are appended
across documents and services are identified by name — lookup returns
the first descriptor carrying the name — but duplicate names are NOT
a validation error at config load: the descriptor list is validated
elementwise and a list with two same-named valid descriptors passes
(`C7_counterexample`). -/
theorem C7_merge_and_no_uniqueness :
    (∀ (ov base : List (String × YVal)) (bs os : List YVal),
      (ov.map Prod.fst).Nodup → ("services", YVal.list os) ∈ ov →
      getKey base "services" = some (.list bs) →
      getKey (mergeConfigs base ov) "services" = some (.list (bs ++ os))) ∧
    (∀ l : List RawService, (∀ s ∈ l, (validateService s).isOk = true) →
      (validateServicesList l).isOk = true) ∧
    (∀ (l1 l2 : List RawService) (s : RawService) (nm : String),
      s.name = nm → (∀ s2 ∈ l1, s2.name ≠ nm) →
      getServiceConfig (l1 ++ s :: l2) nm = some s) := by
  refine ⟨fun ov base bs os h1 h2 h3 =>
    mergeConfigs_services_append ov base bs os h1 h2 h3, ?_, ?_⟩
  · intro l
    induction l with
    | nil => intro _; rfl
    | cons s rest ih =>
      intro h
      have hs := h s (List.mem_cons_self _ _)
      have hrest := ih (fun s2 h2 => h s2 (List.mem_cons_of_mem _ h2))
      rw [validateServicesList]
      cases hv : validateService s with
      | error e => rw [hv] at hs; simp [Except.isOk, Except.toBool] at hs
      | ok v =>
        cases hr : validateServicesList rest with
        | error e =>
          rw [hr] at hrest
          simp [Except.isOk, Except.toBool] at hrest
        | ok vs => rfl
  · intro l1 l2 s nm hname hnone
    rw [getServiceConfig, List.find?_append]
    have h1 : l1.find? (fun x => x.name == nm) = Option.none := by
      rw [List.find?_eq_none]
      intro x hx hbeq
      exact hnone x hx (by simpa using hbeq)
    rw [h1, Option.none_or, List.find?_cons_of_pos]
    simp [hname]

theorem C7_merge_and_no_uniqueness_witness :
    getKey (mergeConfigs [("services", YVal.list [.str "a"])]
        [("services", YVal.list [.str "b"])]) "services"
      = some (.list [.str "a", .str "b"]) ∧
    (validateServicesList
      [⟨"x", "generic", Option.none, Option.none, Option.none,
        Option.none⟩]).isOk = true ∧
    getServiceConfig ([] ++
        (⟨"x", "generic", Option.none, Option.none, Option.none,
          Option.none⟩ : RawService) :: []) "x"
      = some ⟨"x", "generic", Option.none, Option.none, Option.none,
          Option.none⟩ :=
  ⟨C7_merge_and_no_uniqueness.1 [("services", YVal.list [.str "b"])]
      [("services", YVal.list [.str "a"])] [.str "a"] [.str "b"]
      (by simp) (List.mem_cons_self _ _) rfl,
    C7_merge_and_no_uniqueness.2.1 _
      (by
        intro s hs
        rw [List.mem_singleton] at hs
        subst hs
        rfl),
    C7_merge_and_no_uniqueness.2.2 [] [] _ "x" rfl
      (fun s2 h2 => absurd h2 (List.not_mem_nil _))⟩

/-- C7 counterexample: a merged configuration holding two service
descriptors with the same name passes validation at config load —
each descriptor is validated on its own and no uniqueness check
exists. -/
theorem C7_counterexample :
    validateServicesList
      [⟨"app", "docker", Option.none, Option.none, some "c1", Option.none⟩,
        ⟨"app", "docker", Option.none, Option.none, some "c2", Option.none⟩]
      = .ok
      [⟨"app", "docker", Option.none, Option.none, some "c1", Option.none⟩,
        ⟨"app", "docker", Option.none, Option.none, some "c2",
          Option.none⟩] := by
  rfl

/-- C8 (amended): for calls sharing the service name, service type and
extension, `_generate_backup_filename` outputs sort lexicographically
in the same order as the wall clock of the calls (at the one-second
granularity of the zero-padded `YYYYMMDD_HHMMSS` timestamp).  For
calls with different service names the claim as stated fails — the
sanitized name prefix dominates the string comparison
(`C8_counterexample`). -/
theorem C8_filename_sorted (name serviceType ext : String) (t1 t2 : DateTime)
    (h1 : t1.valid = true) (h2 : t2.valid = true)
    (hlt : clockLtB t1 t2 = true) :
    generateBackupFilename name serviceType ext t1
      < generateBackupFilename name serviceType ext t2 := by
  rw [String.lt_iff_toList_lt]
  exact list_lt_prefix (sanitizeChars name.data)
    (List.Lex.cons (list_lt_append (strftimeChars_lt h1 h2 hlt)
      (by rw [strftimeChars_length, strftimeChars_length])))

theorem C8_filename_sorted_witness :
    generateBackupFilename "svc" "vm" "tar.gz" ⟨2025, 1, 2, 3, 4, 5, 0⟩
      < generateBackupFilename "svc" "vm" "tar.gz" ⟨2025, 1, 2, 3, 4, 6, 0⟩ :=
  C8_filename_sorted "svc" "vm" "tar.gz" ⟨2025, 1, 2, 3, 4, 5, 0⟩
    ⟨2025, 1, 2, 3, 4, 6, 0⟩ (by decide) (by decide) (by decide)

/-- C8 counterexample: two calls in strict wall-clock order whose
filenames do not sort in that order, because the service names
differ: `b_...` sorts after `a_...` although it was generated
first. -/
theorem C8_counterexample :
    clockLtB ⟨2025, 1, 1, 0, 0, 0, 0⟩ ⟨2025, 1, 1, 0, 0, 1, 0⟩ = true ∧
    ¬ (generateBackupFilename "b" "vm" "tar.gz" ⟨2025, 1, 1, 0, 0, 0, 0⟩
        < generateBackupFilename "a" "vm" "tar.gz" ⟨2025, 1, 1, 0, 0, 1, 0⟩) := by
  constructor
  · decide
  · rw [String.lt_iff_toList_lt]
    decide

end HomelabAutopilot
